import Mathlib

/-!
Shallow embedding of the TradingView → Supabase batch job
(source: tv_data_supabase.py) together with proofs about its
decision logic: the freshness gate, the row normalizer, the upsert
reconciler, the calendar guard, the retry boundary, the fan-out
runner, the statistics aggregate and the process exit code.

Modelling conventions:
  * calendar dates are day ordinals (Nat); the store's date column and
    the gate's date comparisons use this single representation;
  * Python string operations (upper, strip, split, startswith, in)
    are embedded as structurally recursive functions over String.data
    so that every definition evaluates inside the kernel;
  * numeric OHLCV payloads are carried opaquely as Int: no claim
    depends on their arithmetic, only on their presence;
  * the remote table is a list of rows; the Supabase calls
    (select / delete / insert / upsert on_conflict) are embedded as
    pure list operations on it;
  * fallible external interactions (provider fetch, store lookups,
    store writes) are Except values or failure flags supplied by a
    per-symbol behaviour record, so that every error-handling branch
    of the source is reachable in the model.
-/

/-! ### Embedded Python string primitives -/

/-- Python str.upper, as used in `symbol.upper()`. -/
def pyUpper (s : String) : String := ⟨s.data.map Char.toUpper⟩

/-- Python str.strip (leading and trailing whitespace removed). -/
def pyStrip (s : String) : String :=
  ⟨((s.data.dropWhile Char.isWhitespace).reverse.dropWhile Char.isWhitespace).reverse⟩

/-- Python line.split(',')[0]: the characters before the first comma
(the whole string when no comma occurs). -/
def beforeComma (s : String) : String := ⟨s.data.takeWhile (fun c => !(c == ','))⟩

/-- Python line.startswith('#'). -/
def startsWithHash (s : String) : Bool :=
  match s.data with
  | [] => false
  | c :: _ => c == '#'

/-- Python `',' in line`. -/
def hasComma (s : String) : Bool := s.data.contains ','

/-- Python truthiness test `if not line` after strip. -/
def strEmpty (s : String) : Bool := s.data.isEmpty

/-! ### Data model -/

/-- A normalized row as produced by `_process_dataframe` and persisted
in the `trading_data` table: columns code, date, high_tl, low_tl,
closing_tl, volume_t. -/
structure ObservationRow where
  code : String
  date : Nat
  high_tl : Int
  low_tl : Int
  closing_tl : Int
  volume_t : Int
deriving DecidableEq, Repr

/-- A raw cell of the provider table before `pd.to_numeric(errors='coerce')`:
either a numeric value, a non-numeric value (coerced to NaN), or already
missing (NaN). -/
inductive RawValue where
  | num (v : Int)
  | nonNumeric
  | missing
deriving DecidableEq, Repr

/-- pd.to_numeric with errors='coerce' followed by the null test that
`dropna` applies: a numeric cell survives, anything else becomes missing. -/
def toNumeric : RawValue → Option Int
  | .num v => some v
  | .nonNumeric => none
  | .missing => none

/-- One row of the raw time-indexed table returned by
`tv_client.get_hist` after `reset_index()`: a datetime (kept as a day
ordinal) and the four numeric columns selected by the normalizer. -/
structure RawRow where
  date : Nat
  high : RawValue
  low : RawValue
  close : RawValue
  volume : RawValue
deriving DecidableEq, Repr

/-- The persisted store: the remote table read and written by the
reconciler, keyed by (code, date). -/
abbrev Store := List ObservationRow

/-! ### Row normalizer (`_process_dataframe`) -/

/-- Coercion of one raw row: the four numeric columns are coerced and
the row is dropped (`dropna`) when any of them is missing; the
instrument code is stamped uppercase (`df_clean['code'] = symbol.upper()`). -/
def coerceRow (symbol : String) (r : RawRow) : Option ObservationRow :=
  match toNumeric r.high, toNumeric r.low, toNumeric r.close, toNumeric r.volume with
  | some h, some l, some c, some v =>
      some { code := pyUpper symbol, date := r.date, high_tl := h,
             low_tl := l, closing_tl := c, volume_t := v }
  | _, _, _, _ => none

/-- Ascending-by-date order used by `df_clean.sort_values('date')`. -/
def dateAsc (a b : ObservationRow) : Prop := a.date ≤ b.date

instance : DecidableRel dateAsc :=
  fun a b => inferInstanceAs (Decidable (a.date ≤ b.date))

instance : IsTotal ObservationRow dateAsc := ⟨fun a b => Nat.le_total a.date b.date⟩

instance : IsTrans ObservationRow dateAsc := ⟨fun _ _ _ => Nat.le_trans⟩

/-- `_process_dataframe`: select the four columns, stamp the uppercased
code, coerce to numeric, drop incomplete rows, sort ascending by date. -/
def _process_dataframe (df : List RawRow) (symbol : String) : List ObservationRow :=
  List.insertionSort dateAsc (df.filterMap (coerceRow symbol))

/-! ### Store queries -/

/-- The select used by the gate and the reconciler:
`.select('date').eq('code', symbol)` — the dates persisted for a code. -/
def datesByCode (tbl : Store) (code : String) : List Nat :=
  (tbl.filter (fun r => r.code == code)).map (fun r => r.date)

/-- `_get_existing_dates`: the persisted dates for a code; its
try/except returns the empty set on any lookup failure. -/
def _get_existing_dates (lookup : Except Unit Store) (symbol : String) : List Nat :=
  match lookup with
  | .error _ => []
  | .ok tbl => datesByCode tbl symbol

/-- The `.order('date', desc=True).limit(1)` query: the greatest
persisted date, or none when the code has no rows. -/
def maxDate : List Nat → Option Nat
  | [] => none
  | d :: ds => some (ds.foldl Nat.max d)

/-! ### Freshness gate (`_check_if_new_data_needed`) -/

/-- `_check_if_new_data_needed`: true means fetch, false means skip.
The lookup argument is the store read for this code; the error case
covers the whole try/except (store unreachable as well as a malformed
stored date failing strptime), which the source answers with True. -/
def _check_if_new_data_needed (lookup : Except Unit (List Nat)) (today : Nat) : Bool :=
  match lookup with
  | .error _ => true
  | .ok dates =>
    if !(dates.filter (fun d => today ≤ d)).isEmpty then
      false
    else
      match maxDate dates with
      | none => true
      | some last => decide ((1 : Int) ≤ (today : Int) - (last : Int))

/-! ### Upsert reconciler (`_upsert_data`) -/

/-- One row of a Supabase `upsert(..., on_conflict='code,date')` batch:
replace the row with the same (code, date) key when present, append
otherwise. -/
def upsertStep (acc : Store) (r : ObservationRow) : Store :=
  if acc.any (fun x => x.code == r.code && x.date == r.date) then
    acc.map (fun x => if x.code == r.code && x.date == r.date then r else x)
  else
    acc ++ [r]

/-- A whole upsert batch applied to the table. -/
def upsertRows (tbl : Store) (rows : List ObservationRow) : Store :=
  rows.foldl upsertStep tbl

/-- `_upsert_data`: full refresh deletes every row of the code and
inserts the incoming frame; incremental reads the persisted dates for
the code, keeps only rows whose date is absent, and upserts them.
Returns the new table and the (new, updated) counts the source
returns. -/
def _upsert_data (fullRefresh : Bool) (tbl : Store) (df : List ObservationRow)
    (symbol : String) : Store × Nat × Nat :=
  if fullRefresh then
    (tbl.filter (fun r => !(r.code == symbol)) ++ df, df.length, 0)
  else
    let existing := _get_existing_dates (.ok tbl) symbol
    let df_new := df.filter (fun r => !(existing.contains r.date))
    if df_new.isEmpty then
      (tbl, 0, 0)
    else
      (upsertRows tbl df_new, df_new.length, 0)

/-! ### Calendar guard (`_is_weekend_or_holiday`) -/

/-- One line of holiday_dates.txt, processed as the source does:
strip, skip blank lines and comment lines, and on a line of the form
YYYY-MM-DD, description compare the part before the comma with today;
a line without a comma is never matched. -/
def holidayLineMatches (todayStr line : String) : Bool :=
  let l := pyStrip line
  if strEmpty l then false
  else if startsWithHash l then false
  else if hasComma l then pyStrip (beforeComma l) == todayStr
  else false

/-- The hardcoded fallback holiday list (month, day, name) of the
source, matched by month and day of today. -/
def hardcodedHolidays : List (Nat × Nat × String) :=
  [ (1, 1, "Yeni Yil Tatili"),
    (3, 29, "Ramazan Bayrami Arefesi"),
    (3, 30, "Ramazan Bayrami 1. Gun"),
    (3, 31, "Ramazan Bayrami 2. Gun"),
    (4, 1, "Ramazan Bayrami 3. Gun"),
    (4, 23, "Ulusal Egemenlik ve Cocuk Bayrami"),
    (5, 1, "Emek ve Dayanisma Gunu"),
    (5, 19, "Ataturku Anma Genclik ve Spor Bayrami"),
    (6, 5, "Kurban Bayrami Arefesi"),
    (6, 6, "Kurban Bayrami 1. Gun"),
    (6, 7, "Kurban Bayrami 2. Gun"),
    (6, 8, "Kurban Bayrami 3. Gun"),
    (6, 9, "Kurban Bayrami 4. Gun"),
    (7, 15, "Demokrasi ve Milli Birlik Gunu"),
    (8, 30, "Zafer Bayrami"),
    (10, 28, "Cumhuriyet Bayrami Arefesi"),
    (10, 29, "Cumhuriyet Bayrami") ]

/-- Configuration and today's clock facets for one run. The weekday,
month, day, todayStr and today fields are the facets of
datetime.now() the source reads (Python weekday: Monday = 0,
Saturday = 5, Sunday = 6); today is the day ordinal compared against
stored dates. holidayFileLines is the content of holiday_dates.txt,
none when the file is absent or unreadable (both fall through to the
hardcoded list). -/
structure RunConfig where
  fullRefresh : Bool
  incrementalFetchEnabled : Bool
  forceRun : Bool
  weekday : Nat
  month : Nat
  day : Nat
  todayStr : String
  today : Nat
  holidayFileLines : Option (List String)
  symbols : List String
deriving Repr

/-- The external-file check of the guard. -/
def holidayFileMatch (cfg : RunConfig) : Bool :=
  match cfg.holidayFileLines with
  | some lines => lines.any (fun l => holidayLineMatches cfg.todayStr l)
  | none => false

/-- The hardcoded-list check of the guard. -/
def hardcodedHolidayMatch (cfg : RunConfig) : Bool :=
  hardcodedHolidays.any (fun h => cfg.month == h.1 && cfg.day == h.2.1)

/-- `_is_weekend_or_holiday`: weekend first, then the external file,
then the hardcoded fallback list. -/
def _is_weekend_or_holiday (cfg : RunConfig) : Bool :=
  if 5 ≤ cfg.weekday then true
  else if holidayFileMatch cfg then true
  else hardcodedHolidayMatch cfg

/-! ### Fetch boundary retry (tenacity decorator on `_fetch_symbol_data`) -/

/-- tenacity stop_after_attempt(n): stop once attemptNumber reaches n. -/
def stop_after_attempt (maxAttempts attemptNumber : Nat) : Bool :=
  maxAttempts ≤ attemptNumber

/-- tenacity wait_exponential(multiplier, min=mn, max=mx) evaluated at
an attempt number: clamp multiplier * 2 ^ attemptNumber into [mn, mx]. -/
def wait_exponential (multiplier mn mx attemptNumber : Nat) : Nat :=
  Nat.max mn (Nat.min (multiplier * 2 ^ attemptNumber) mx)

/-- The tenacity loop: call f at successive attempt numbers, stop on
success or once stop_after_attempt fires, sleeping
wait_exponential 1 4 10 between attempts. Returns the surfaced result,
the number of the last attempt, and the list of waits. The fuel
argument bounds the recursion and is chosen large enough never to run
out before the stop condition. -/
def retryLoop (f : Nat → Except String α) (maxAttempts : Nat) :
    Nat → Nat → List Nat → Except String α × Nat × List Nat
  | fuel, attemptNumber, waits =>
    match f attemptNumber with
    | .ok a => (.ok a, attemptNumber, waits)
    | .error e =>
      if stop_after_attempt maxAttempts attemptNumber then
        (.error e, attemptNumber, waits)
      else
        match fuel with
        | 0 => (.error e, attemptNumber, waits)
        | fuel' + 1 =>
          retryLoop f maxAttempts fuel' (attemptNumber + 1)
            (waits ++ [wait_exponential 1 4 10 attemptNumber])

/-- The decorated fetch boundary:
retry(stop=stop_after_attempt(3), wait=wait_exponential(multiplier=1,
min=4, max=10), retry=retry_if_exception_type(Exception)). -/
def fetch_with_retry (f : Nat → Except String α) : Except String α × Nat × List Nat :=
  retryLoop f 3 3 1 []

/-! ### Per-symbol pipeline and fan-out runner -/

/-- The execution_stats aggregate dictionary. -/
structure ExecutionStats where
  total_symbols : Nat
  successful_fetches : Nat
  failed_fetches : Nat
  total_records : Nat
  new_records : Nat
  updated_records : Nat
  errors : List String
deriving DecidableEq, Repr

/-- The aggregate as created in __init__. -/
def initial_execution_stats : ExecutionStats :=
  { total_symbols := 0, successful_fetches := 0, failed_fetches := 0,
    total_records := 0, new_records := 0, updated_records := 0, errors := [] }

/-- The external world seen by one symbol's task: whether the gate's
store lookup fails, what the provider call surfaces after the retry
boundary (error = raised even after retries, ok none = empty or
missing response, ok some = a raw table), and whether the store write
during reconciliation fails. -/
structure SymbolBehavior where
  gateLookupFails : Bool
  fetchResult : Except String (Option (List RawRow))
  upsertFails : Bool
deriving Repr

/-- The gate's store read for a code. -/
def gateLookup (b : SymbolBehavior) (tbl : Store) (symbol : String) :
    Except Unit (List Nat) :=
  if b.gateLookupFails then .error () else .ok (datesByCode tbl symbol)

/-- Store queries issued by one gate consultation: the today-filter
query always, the max-date query only when the first returns nothing. -/
def gateCallCount (lookup : Except Unit (List Nat)) (today : Nat) : Nat :=
  match lookup with
  | .error _ => 1
  | .ok dates => if !(dates.filter (fun d => today ≤ d)).isEmpty then 1 else 2

/-- Store calls issued by `_upsert_data`: delete + insert under full
refresh; the existing-dates select plus the upsert when rows remain. -/
def upsertCallCount (fullRefresh : Bool) (tbl : Store) (df : List ObservationRow)
    (symbol : String) : Nat :=
  if fullRefresh then 2
  else
    let existing := datesByCode tbl symbol
    if (df.filter (fun r => !(existing.contains r.date))).isEmpty then 1 else 2

/-- `_fetch_symbol_data` (body of one attempt): consult the gate when
not in full refresh and incremental gating is enabled, returning None
on skip; otherwise surface the provider result, normalizing a present
table. Also returns the number of external calls made. -/
def _fetch_symbol_data (cfg : RunConfig) (b : SymbolBehavior) (tbl : Store)
    (symbol : String) : Except String (Option (List ObservationRow)) × Nat :=
  let gated := !cfg.fullRefresh && cfg.incrementalFetchEnabled
  let lookup := gateLookup b tbl symbol
  let gCalls := if gated then gateCallCount lookup cfg.today else 0
  if gated && !(_check_if_new_data_needed lookup cfg.today) then
    (.ok none, gCalls)
  else
    match b.fetchResult with
    | .error e => (.error e, gCalls + 1)
    | .ok none => (.ok none, gCalls + 1)
    | .ok (some raw) => (.ok (some (_process_dataframe raw symbol)), gCalls + 1)

/-- Outcome of one symbol's task: success (stats success counters
bumped), skipped (returned False without touching the counters:
gate skip, empty response, or empty normalized frame), or failed (an
exception was caught and failed_fetches bumped). -/
inductive SymOutcome where
  | success
  | skipped
  | failed
deriving DecidableEq, Repr

/-- `_process_symbol`: fetch, bail out on None/empty, reconcile, and
update the shared statistics; every exception is caught and counted as
a failed fetch. Returns the outcome, the new table, the new stats and
the external calls made. -/
def _process_symbol (cfg : RunConfig) (b : SymbolBehavior) (symbol : String)
    (tbl : Store) (stats : ExecutionStats) :
    SymOutcome × Store × ExecutionStats × Nat :=
  match _fetch_symbol_data cfg b tbl symbol with
  | (.error e, c) =>
      (.failed, tbl,
        { stats with failed_fetches := stats.failed_fetches + 1,
                     errors := stats.errors ++ [symbol ++ ": " ++ e] }, c)
  | (.ok none, c) => (.skipped, tbl, stats, c)
  | (.ok (some df), c) =>
    if df.isEmpty then (.skipped, tbl, stats, c)
    else if b.upsertFails then
      (.failed, tbl,
        { stats with failed_fetches := stats.failed_fetches + 1 }, c + 1)
    else
      let res := _upsert_data cfg.fullRefresh tbl df symbol
      (.success, res.1,
        { stats with successful_fetches := stats.successful_fetches + 1,
                     total_records := stats.total_records + df.length,
                     new_records := stats.new_records + res.2.1,
                     updated_records := stats.updated_records + res.2.2 },
        c + upsertCallCount cfg.fullRefresh tbl df symbol)

/-- Result of a whole run: the final statistics, the final table, the
number of external (network/store) calls made, and the per-symbol
outcomes in submission order. -/
structure RunResult where
  stats : ExecutionStats
  tbl : Store
  calls : Nat
  outcomes : List SymOutcome
deriving Repr

/-- One fold step of the fan-out runner. -/
def runStep (cfg : RunConfig) (behavior : String → SymbolBehavior)
    (acc : RunResult) (symbol : String) : RunResult :=
  let r := _process_symbol cfg (behavior symbol) symbol acc.tbl acc.stats
  { stats := r.2.2.1, tbl := r.2.1, calls := acc.calls + r.2.2.2,
    outcomes := acc.outcomes ++ [r.1] }

/-- The fan-out part of `run`: load the symbols (total_symbols is set),
submit one task per symbol, and aggregate every task's outcome into
the shared statistics. The pool completes every submitted task; the
model serializes them (the aggregate counts are what the claims
state). -/
def runPipeline (cfg : RunConfig) (behavior : String → SymbolBehavior)
    (tbl₀ : Store) : RunResult :=
  cfg.symbols.foldl (runStep cfg behavior)
    { stats := { initial_execution_stats with total_symbols := cfg.symbols.length },
      tbl := tbl₀, calls := 0, outcomes := [] }

/-- `run`: the calendar guard fires first, before any network or store
access; unless FORCE_RUN is set, a weekend/holiday returns the
untouched initial statistics with zero external calls. -/
def run (cfg : RunConfig) (behavior : String → SymbolBehavior)
    (tbl₀ : Store) : RunResult :=
  if _is_weekend_or_holiday cfg && !cfg.forceRun then
    { stats := initial_execution_stats, tbl := tbl₀, calls := 0, outcomes := [] }
  else
    runPipeline cfg behavior tbl₀

/-- Which exception, if any, escaped to main's handlers: none, a
KeyboardInterrupt, or a configuration error raised by load_config
before any work began. -/
inductive RunInterruption where
  | noInterrupt
  | keyboardInterrupt
  | configError
deriving DecidableEq, Repr

/-- The exit-code logic of main(): 1 on a configuration (or other
fatal) error escaping to the generic handler, 130 on
KeyboardInterrupt, otherwise 1 when any symbol failed and 0 when none
did. -/
def mainExitCode (i : RunInterruption) (cfg : RunConfig)
    (behavior : String → SymbolBehavior) (tbl₀ : Store) : Nat :=
  match i with
  | .configError => 1
  | .keyboardInterrupt => 130
  | .noInterrupt =>
    if 0 < (run cfg behavior tbl₀).stats.failed_fetches then 1 else 0

/-- Classification of a task's outcome from its own behaviour alone,
valid whenever the gate is not consulted (incremental gating
disabled): raise → failed; empty response or empty normalized frame →
skipped; otherwise success or failed according to the write. -/
def classifyBehavior (b : SymbolBehavior) (symbol : String) : SymOutcome :=
  match b.fetchResult with
  | .error _ => .failed
  | .ok none => .skipped
  | .ok (some raw) =>
    if (_process_dataframe raw symbol).isEmpty then .skipped
    else if b.upsertFails then .failed
    else .success

/-- Does a fetch behaviour raise? -/
def isErrorResult : Except String (Option (List RawRow)) → Bool
  | .error _ => true
  | .ok _ => false

/-! ### Concrete inputs used to evaluate the model -/

/-- A normalized row stamped uppercase, as the normalizer emits for the
lowercase symbol a. -/
def rowA : ObservationRow :=
  { code := "A", date := 0, high_tl := 1, low_tl := 1, closing_tl := 1, volume_t := 1 }

/-- An older persisted row of the same instrument, stamped uppercase by
an earlier run. -/
def rowA5 : ObservationRow :=
  { code := "A", date := 5, high_tl := 1, low_tl := 1, closing_tl := 1, volume_t := 1 }

/-- A normalized row for the uppercase symbol GARAN. -/
def rowG : ObservationRow :=
  { code := "GARAN", date := 3, high_tl := 2, low_tl := 1, closing_tl := 2, volume_t := 9 }

/-- An older persisted GARAN row. -/
def rowG5 : ObservationRow :=
  { code := "GARAN", date := 5, high_tl := 3, low_tl := 2, closing_tl := 3, volume_t := 8 }

/-- A raw provider row whose four numeric cells are all present. -/
def rawGood : RawRow :=
  { date := 10, high := .num 1, low := .num 1, close := .num 1, volume := .num 1 }

/-- A raw provider row with a non-numeric volume cell. -/
def rawBadVolume : RawRow :=
  { date := 7, high := .num 2, low := .num 1, close := .num 2, volume := .nonNumeric }

/-- The row the normalizer produces from rawGood for the symbol garan. -/
def rowGnorm : ObservationRow :=
  { code := "GARAN", date := 10, high_tl := 1, low_tl := 1, closing_tl := 1, volume_t := 1 }

/-- A task whose provider call returns a one-row table and whose store
writes succeed. -/
def goodBehavior : SymbolBehavior :=
  { gateLookupFails := false, fetchResult := .ok (some [rawGood]), upsertFails := false }

/-- A task whose provider call keeps raising until the retry budget is
exhausted. -/
def failBehavior : SymbolBehavior :=
  { gateLookupFails := false, fetchResult := .error "boom", upsertFails := false }

/-- A task whose provider call returns an empty/missing response. -/
def emptyBehavior : SymbolBehavior :=
  { gateLookupFails := false, fetchResult := .ok none, upsertFails := false }

/-- A weekday run over five symbols with incremental gating disabled. -/
def cfgFan : RunConfig :=
  { fullRefresh := false, incrementalFetchEnabled := false, forceRun := true,
    weekday := 1, month := 2, day := 4, todayStr := "2025-02-04", today := 100,
    holidayFileLines := none, symbols := ["S1", "S2", "S3", "S4", "S5"] }

/-- Exactly one of the five tasks always fails; the other four succeed. -/
def behaviorFan : String → SymbolBehavior :=
  fun s => if s == "S3" then failBehavior else goodBehavior

/-- As behaviorFan, but one further symbol receives an empty response. -/
def behaviorMixed : String → SymbolBehavior :=
  fun s => if s == "S2" then emptyBehavior else behaviorFan s

/-- A Saturday run without the FORCE_RUN override. -/
def cfgSat : RunConfig := { cfgFan with weekday := 5, forceRun := false }

/-- The same Saturday with the FORCE_RUN override set. -/
def cfgForce : RunConfig := { cfgFan with weekday := 5, forceRun := true }

/-- A provider call that fails on the first two attempts and succeeds
on the third. -/
def retryWitnessCall : Nat → Except String Nat :=
  fun n => if n < 3 then .error "transient" else .ok 42

/-! ### Helper lemmas about the store and the upsert batch -/

lemma datesByCode_cons (x : ObservationRow) (xs : Store) (c : String) :
    datesByCode (x :: xs) c
      = if x.code == c then x.date :: datesByCode xs c else datesByCode xs c := by
  simp only [datesByCode, List.filter_cons]
  split <;> simp

lemma datesByCode_append (a b : Store) (c : String) :
    datesByCode (a ++ b) c = datesByCode a c ++ datesByCode b c := by
  simp [datesByCode, List.filter_append]

lemma mem_datesByCode {tbl : Store} {c : String} {d : Nat} :
    d ∈ datesByCode tbl c ↔ ∃ x ∈ tbl, x.code = c ∧ x.date = d := by
  simp only [datesByCode, List.mem_map, List.mem_filter, beq_iff_eq]
  constructor
  · rintro ⟨x, ⟨hx, hc⟩, hd⟩
    exact ⟨x, hx, hc, hd⟩
  · rintro ⟨x, hx, hc, hd⟩
    exact ⟨x, ⟨hx, hc⟩, hd⟩

lemma datesByCode_map_preserve (f : ObservationRow → ObservationRow)
    (hf : ∀ x, (f x).code = x.code ∧ (f x).date = x.date) (l : Store) (c : String) :
    datesByCode (l.map f) c = datesByCode l c := by
  induction l with
  | nil => rfl
  | cons x xs ih =>
    rw [List.map_cons, datesByCode_cons, datesByCode_cons, (hf x).1, (hf x).2, ih]

lemma datesByCode_upsertStep (acc : Store) (r : ObservationRow) (c : String) :
    datesByCode acc c ⊆ datesByCode (upsertStep acc r) c := by
  unfold upsertStep
  split
  · intro d hd
    rw [datesByCode_map_preserve]
    · exact hd
    · intro x
      by_cases h : (x.code == r.code && x.date == r.date) = true
      · have h1 : x.code = r.code := beq_iff_eq.mp (Bool.and_elim_left h)
        have h2 : x.date = r.date := beq_iff_eq.mp (Bool.and_elim_right h)
        simp [h, h1, h2]
      · simp [h]
  · intro d hd
    rw [datesByCode_append]
    exact List.mem_append_left _ hd

lemma datesByCode_upsertRows_superset (rows : List ObservationRow) :
    ∀ (tbl : Store) (c : String), datesByCode tbl c ⊆ datesByCode (upsertRows tbl rows) c := by
  induction rows with
  | nil =>
    intro tbl c
    simp [upsertRows]
  | cons r rs ih =>
    intro tbl c d hd
    have h1 := datesByCode_upsertStep tbl r c hd
    have h2 := ih (upsertStep tbl r) c h1
    simpa [upsertRows] using h2

lemma date_mem_upsertStep_self (tbl : Store) (a : ObservationRow) :
    a.date ∈ datesByCode (upsertStep tbl a) a.code := by
  unfold upsertStep
  split
  · next hany =>
    obtain ⟨x, hx, hkey⟩ := List.any_eq_true.mp hany
    have h1 : x.code = a.code := beq_iff_eq.mp (Bool.and_elim_left hkey)
    have h2 : x.date = a.date := beq_iff_eq.mp (Bool.and_elim_right hkey)
    rw [datesByCode_map_preserve]
    · exact mem_datesByCode.mpr ⟨x, hx, h1, h2⟩
    · intro y
      by_cases h : (y.code == a.code && y.date == a.date) = true
      · have g1 : y.code = a.code := beq_iff_eq.mp (Bool.and_elim_left h)
        have g2 : y.date = a.date := beq_iff_eq.mp (Bool.and_elim_right h)
        simp [h, g1, g2]
      · simp [h]
  · rw [datesByCode_append]
    refine List.mem_append_right _ ?_
    simp [datesByCode]

lemma date_mem_upsertRows (rows : List ObservationRow) :
    ∀ (tbl : Store) (r : ObservationRow), r ∈ rows →
      r.date ∈ datesByCode (upsertRows tbl rows) r.code := by
  induction rows with
  | nil =>
    intro tbl r h
    cases h
  | cons a rs ih =>
    intro tbl r h
    rcases List.mem_cons.mp h with h | h
    · subst h
      have h1 := date_mem_upsertStep_self tbl r
      have h2 := datesByCode_upsertRows_superset rs (upsertStep tbl r) r.code h1
      simpa [upsertRows] using h2
    · have h2 := ih (upsertStep tbl a) r h
      simpa [upsertRows] using h2

lemma upsert_covers_dates (tbl : Store) (df : List ObservationRow) (symbol : String)
    (hcode : ∀ r ∈ df, r.code = symbol) :
    ∀ r ∈ df, r.date ∈ datesByCode ((_upsert_data false tbl df symbol).1) symbol := by
  intro r hr
  simp only [_upsert_data, _get_existing_dates, Bool.false_eq_true, if_false]
  by_cases hE : (df.filter (fun x => !((datesByCode tbl symbol).contains x.date))).isEmpty
  · rw [if_pos hE]
    have hnil : df.filter (fun x => !((datesByCode tbl symbol).contains x.date)) = [] :=
      List.isEmpty_iff.mp hE
    have hall := List.filter_eq_nil_iff.mp hnil r hr
    have hc : (datesByCode tbl symbol).contains r.date = true := by
      revert hall
      cases (datesByCode tbl symbol).contains r.date <;> simp
    simpa using hc
  · rw [if_neg hE]
    by_cases hc : (datesByCode tbl symbol).contains r.date = true
    · have hmem : r.date ∈ datesByCode tbl symbol := by simpa using hc
      exact datesByCode_upsertRows_superset _ tbl symbol hmem
    · have hrn : r ∈ df.filter (fun x => !((datesByCode tbl symbol).contains x.date)) := by
        refine List.mem_filter.mpr ⟨hr, ?_⟩
        revert hc
        cases (datesByCode tbl symbol).contains r.date <;> simp
      have hm := date_mem_upsertRows _ tbl r hrn
      rwa [hcode r hr] at hm

lemma upsert_noop_of_covered (tbl : Store) (df : List ObservationRow) (symbol : String)
    (h : ∀ r ∈ df, r.date ∈ datesByCode tbl symbol) :
    _upsert_data false tbl df symbol = (tbl, 0, 0) := by
  have hnil : df.filter (fun r => !((datesByCode tbl symbol).contains r.date)) = [] := by
    apply List.filter_eq_nil_iff.mpr
    intro r hr
    have hm := h r hr
    simp [hm]
  simp only [_upsert_data, _get_existing_dates, Bool.false_eq_true, if_false]
  rw [hnil]
  simp

/-- Claim C1 (amended): given the incremental strategy, the reconciler
reads the set of persisted dates for the queried code, inserts only
the rows whose date is not in that set, returns new_count = the number
of those rows and updated_count = 0, performs zero writes when every
date is already present, and — provided the rows of the sequence carry
the queried code itself (as the normalizer guarantees exactly when the
instrument code equals its uppercase form) — a second application of
the same sequence after a successful first one performs zero new
writes. -/
theorem incremental_reconciler_spec (tbl : Store) (df : List ObservationRow) (symbol : String)
    (hcode : ∀ r ∈ df, r.code = symbol) :
    ((_upsert_data false tbl df symbol).2.1
        = (df.filter (fun r => !((datesByCode tbl symbol).contains r.date))).length)
  ∧ ((_upsert_data false tbl df symbol).2.2 = 0)
  ∧ ((∀ r ∈ df, r.date ∈ datesByCode tbl symbol) →
        _upsert_data false tbl df symbol = (tbl, 0, 0))
  ∧ (_upsert_data false (_upsert_data false tbl df symbol).1 df symbol
        = ((_upsert_data false tbl df symbol).1, 0, 0)) := by
  refine ⟨?_, ?_, upsert_noop_of_covered tbl df symbol,
    upsert_noop_of_covered _ df symbol (upsert_covers_dates tbl df symbol hcode)⟩
  · simp only [_upsert_data, _get_existing_dates, Bool.false_eq_true, if_false]
    by_cases hE : (df.filter (fun r => !((datesByCode tbl symbol).contains r.date))).isEmpty
    · rw [if_pos hE, List.isEmpty_iff.mp hE]
      rfl
    · rw [if_neg hE]
  · simp only [_upsert_data, _get_existing_dates, Bool.false_eq_true, if_false]
    by_cases hE : (df.filter (fun r => !((datesByCode tbl symbol).contains r.date))).isEmpty
    · rw [if_pos hE]
    · rw [if_neg hE]

/-- Claim C1 witness: a concrete uppercase instrument for which the
second application of the reconciler is a no-op. -/
theorem incremental_reconciler_witness :
    _upsert_data false (_upsert_data false [] [rowG] "GARAN").1 [rowG] "GARAN"
      = ((_upsert_data false [] [rowG] "GARAN").1, 0, 0) :=
  (incremental_reconciler_spec [] [rowG] "GARAN" (by decide)).2.2.2

/-- Claim C1 counterexample: for the lowercase instrument code a, the
normalized sequence is stamped A, the existing-dates lookup for a
never sees the inserted rows, and a second application after a
successful first one reports one new write instead of zero. -/
theorem incremental_idempotence_ctrex :
    (_upsert_data false [] [rowA] "a").2.1 = 1
  ∧ (_upsert_data false (_upsert_data false [] [rowA] "a").1 [rowA] "a").2.1 = 1
  ∧ ¬((_upsert_data false (_upsert_data false [] [rowA] "a").1 [rowA] "a").2.1 = 0) := by
  decide

lemma filter_code_of_filter_ne (tbl : Store) (symbol : String) :
    (tbl.filter (fun r => !(r.code == symbol))).filter (fun r => r.code == symbol) = [] := by
  rw [List.filter_filter]
  apply List.filter_eq_nil_iff.mpr
  intro a _
  simp

/-- Claim C3 (amended): under full refresh the reconciler deletes every
persisted row carrying the queried code and inserts the whole
sequence, so — provided the sequence's rows carry the queried code
itself (as the normalizer guarantees exactly when the instrument code
equals its uppercase form) — exactly M rows exist for the code
afterwards, rows of other codes are untouched, and the returned counts
are (M, 0). -/
theorem full_refresh_spec (tbl : Store) (df : List ObservationRow) (symbol : String)
    (hcode : ∀ r ∈ df, r.code = symbol) :
    ((_upsert_data true tbl df symbol).1.filter (fun r => r.code == symbol)) = df
  ∧ ((_upsert_data true tbl df symbol).1.filter (fun r => r.code == symbol)).length = df.length
  ∧ ((_upsert_data true tbl df symbol).1.filter (fun r => !(r.code == symbol)))
      = tbl.filter (fun r => !(r.code == symbol))
  ∧ (_upsert_data true tbl df symbol).2 = (df.length, 0) := by
  have hdf : df.filter (fun r => r.code == symbol) = df :=
    List.filter_eq_self.mpr (fun a ha => by simp [hcode a ha])
  have h1 : (_upsert_data true tbl df symbol).1
      = tbl.filter (fun r => !(r.code == symbol)) ++ df := rfl
  have hc1 : ((_upsert_data true tbl df symbol).1.filter (fun r => r.code == symbol)) = df := by
    rw [h1, List.filter_append, filter_code_of_filter_ne, List.nil_append, hdf]
  refine ⟨hc1, by rw [hc1], ?_, rfl⟩
  have hdfnil : df.filter (fun r => !(r.code == symbol)) = [] := by
    apply List.filter_eq_nil_iff.mpr
    intro a ha
    simp [hcode a ha]
  rw [h1, List.filter_append, hdfnil, List.append_nil, List.filter_filter]
  apply List.filter_congr
  intro x _
  simp

/-- Claim C3 witness: a concrete uppercase instrument with one old
persisted row and a one-row sequence: exactly one row remains for the
code after full refresh. -/
theorem full_refresh_witness :
    ((_upsert_data true [rowG5] [rowG] "GARAN").1.filter (fun r => r.code == "GARAN")) = [rowG] :=
  (full_refresh_spec [rowG5] [rowG] "GARAN" (by decide)).1

/-- Claim C3 counterexample: for the lowercase instrument code a with
one previously persisted row (stamped A by an earlier normalization)
and a one-row sequence, the delete filters on a and removes nothing,
so two rows stamped A and zero rows stamped a exist afterwards — under
neither reading of "the code" does exactly M = 1 row exist, and the
old persisted row survives. -/
theorem full_refresh_ctrex :
    ((_upsert_data true [rowA5] [rowA] "a").1.filter (fun r => r.code == "A")).length = 2
  ∧ ((_upsert_data true [rowA5] [rowA] "a").1.filter (fun r => r.code == "a")).length = 0
  ∧ rowA5 ∈ (_upsert_data true [rowA5] [rowA] "a").1 := by
  decide

/-! ### Lemmas about the max-date query -/

lemma foldl_max_bounds (ds : List Nat) :
    ∀ a : Nat, a ≤ ds.foldl Nat.max a ∧ ∀ x ∈ ds, x ≤ ds.foldl Nat.max a := by
  induction ds with
  | nil =>
    intro a
    exact ⟨Nat.le_refl a, by simp⟩
  | cons d ds ih =>
    intro a
    refine ⟨Nat.le_trans (Nat.le_max_left a d) (ih (Nat.max a d)).1, ?_⟩
    intro x hx
    rcases List.mem_cons.mp hx with h | h
    · subst h
      exact Nat.le_trans (Nat.le_max_right a x) (ih (Nat.max a x)).1
    · exact (ih (Nat.max a d)).2 x h

lemma maxDate_ub {dates : List Nat} {m : Nat} (h : maxDate dates = some m) :
    ∀ x ∈ dates, x ≤ m := by
  cases dates with
  | nil => simp [maxDate] at h
  | cons d ds =>
    simp only [maxDate, Option.some_inj] at h
    subst h
    intro x hx
    rcases List.mem_cons.mp hx with h | h
    · subst h
      exact (foldl_max_bounds ds x).1
    · exact (foldl_max_bounds ds d).2 x h

/-- Claim C2: the freshness gate skips when a persisted row dated today
(or later) exists, fetches when no rows exist at all, fetches on any
lookup failure (store unreachable or malformed stored date), and
otherwise fetches exactly when today minus the most recent persisted
date is at least one day. -/
theorem freshness_gate_spec (dates : List Nat) (today m : Nat) :
    (today ∈ dates → _check_if_new_data_needed (.ok dates) today = false)
  ∧ (_check_if_new_data_needed (.ok []) today = true)
  ∧ (_check_if_new_data_needed (.error ()) today = true)
  ∧ (maxDate dates = some m →
      (_check_if_new_data_needed (.ok dates) today = true
        ↔ (1 : Int) ≤ (today : Int) - (m : Int))) := by
  refine ⟨?_, by simp [_check_if_new_data_needed, maxDate], rfl, ?_⟩
  · intro h
    have hmem : today ∈ dates.filter (fun d => today ≤ d) :=
      List.mem_filter.mpr ⟨h, by simp⟩
    have hE : (dates.filter (fun d => today ≤ d)).isEmpty = false := by
      cases hE : (dates.filter (fun d => today ≤ d)).isEmpty
      · rfl
      · rw [List.isEmpty_iff.mp hE] at hmem
        cases hmem
    simp [_check_if_new_data_needed, hE]
  · intro hm
    by_cases hE : (dates.filter (fun d => today ≤ d)).isEmpty
    · have hck : _check_if_new_data_needed (.ok dates) today
          = decide ((1 : Int) ≤ (today : Int) - (m : Int)) := by
        simp [_check_if_new_data_needed, hE, hm]
      rw [hck]
      exact decide_eq_true_iff
    · have hE' : (dates.filter (fun d => today ≤ d)).isEmpty = false := by
        cases hx : (dates.filter (fun d => today ≤ d)).isEmpty
        · rfl
        · exact absurd hx hE
      have hck : _check_if_new_data_needed (.ok dates) today = false := by
        simp [_check_if_new_data_needed, hE']
      rw [hck]
      constructor
      · intro hfalse
        cases hfalse
      · intro hle
        exfalso
        have hne : dates.filter (fun d => today ≤ d) ≠ [] := by
          intro h0
          rw [h0] at hE'
          simp at hE'
        obtain ⟨d, hd⟩ := List.exists_mem_of_ne_nil _ hne
        have hd' := List.mem_filter.mp hd
        have hdd : today ≤ d := by simpa using hd'.2
        have hdm : d ≤ m := maxDate_ub hm d hd'.1
        omega

/-- Claim C2 witness: with persisted dates at most 5 and today = 8 the
gate decides to fetch. -/
theorem freshness_gate_witness :
    _check_if_new_data_needed (.ok [5]) 8 = true := by
  have h := freshness_gate_spec [5] 8 5
  exact (h.2.2.2 (by decide)).mpr (by decide)

/-! ### Calendar guard -/

/-- Claim C4: the guard decision is exactly weekend-or-holiday (weekend
by local weekday, then the external file, then the hardcoded list);
when it fires and the override flag is unset, the run returns the
untouched initial statistics with zero network/store calls and the
store unchanged; when the override flag is set, the normal pipeline
executes. -/
theorem calendar_guard_spec (cfg : RunConfig) (behavior : String → SymbolBehavior)
    (tbl₀ : Store) :
    (_is_weekend_or_holiday cfg
        = (decide (5 ≤ cfg.weekday) || holidayFileMatch cfg || hardcodedHolidayMatch cfg))
  ∧ (_is_weekend_or_holiday cfg = true → cfg.forceRun = false →
      run cfg behavior tbl₀
        = { stats := initial_execution_stats, tbl := tbl₀, calls := 0, outcomes := [] })
  ∧ (cfg.forceRun = true →
      run cfg behavior tbl₀ = runPipeline cfg behavior tbl₀) := by
  refine ⟨?_, ?_, ?_⟩
  · unfold _is_weekend_or_holiday
    by_cases h1 : 5 ≤ cfg.weekday
    · simp [h1]
    · cases hf : holidayFileMatch cfg <;> simp [h1, hf]
  · intro hg hf
    simp [run, hg, hf]
  · intro hf
    simp [run, hf]

/-- Claim C4 witness: a Saturday run without the override is a no-op
with zero external calls, and the same Saturday with the override runs
the normal pipeline. -/
theorem calendar_guard_witness :
    run cfgSat behaviorFan []
        = { stats := initial_execution_stats, tbl := [], calls := 0, outcomes := [] }
  ∧ run cfgForce behaviorFan [] = runPipeline cfgForce behaviorFan [] :=
  ⟨(calendar_guard_spec cfgSat behaviorFan []).2.1 (by decide) rfl,
   (calendar_guard_spec cfgForce behaviorFan []).2.2 rfl⟩

/-! ### Fetch boundary retry -/

lemma retryLoop_attempt_le (f : Nat → Except String α) (m : Nat) :
    ∀ (fuel n : Nat) (waits : List Nat), n ≤ m →
      (retryLoop f m fuel n waits).2.1 ≤ m := by
  intro fuel
  induction fuel with
  | zero =>
    intro n waits hn
    unfold retryLoop
    cases f n with
    | ok a => simpa using hn
    | error e =>
      by_cases hs : stop_after_attempt m n = true
      · simpa [hs] using hn
      · simpa [hs] using hn
  | succ fuel ih =>
    intro n waits hn
    unfold retryLoop
    cases f n with
    | ok a => simpa using hn
    | error e =>
      by_cases hs : stop_after_attempt m n = true
      · simpa [hs] using hn
      · have hlt : n + 1 ≤ m := by
          have : ¬(m ≤ n) := by simpa [stop_after_attempt] using hs
          omega
        simpa [hs] using ih (n + 1) _ hlt

/-- Claim C5: the fetch boundary makes at most 3 attempts; a call that
fails on the first two attempts and succeeds on the third surfaces the
success with exactly three attempts and exponential
(multiplier 1, min 4, max 10) waits between them; a call that fails on
all three surfaces the final failure after exactly three attempts; the
two waits both clamp to the 4-unit minimum. -/
theorem fetch_retry_spec (f : Nat → Except String α) (e1 e2 e3 : String) (a : α) :
    ((fetch_with_retry f).2.1 ≤ 3)
  ∧ (f 1 = .error e1 → f 2 = .error e2 → f 3 = .ok a →
      fetch_with_retry f
        = (.ok a, 3, [wait_exponential 1 4 10 1, wait_exponential 1 4 10 2]))
  ∧ (f 1 = .error e1 → f 2 = .error e2 → f 3 = .error e3 →
      fetch_with_retry f
        = (.error e3, 3, [wait_exponential 1 4 10 1, wait_exponential 1 4 10 2]))
  ∧ (wait_exponential 1 4 10 1 = 4 ∧ wait_exponential 1 4 10 2 = 4) := by
  refine ⟨retryLoop_attempt_le f 3 3 1 [] (by decide), ?_, ?_, by decide, by decide⟩
  · intro h1 h2 h3
    simp [fetch_with_retry, retryLoop, h1, h2, h3, stop_after_attempt]
  · intro h1 h2 h3
    simp [fetch_with_retry, retryLoop, h1, h2, h3, stop_after_attempt]

/-- Claim C5 witness: a concrete call failing twice then succeeding
surfaces the success on the third attempt. -/
theorem fetch_retry_witness :
    fetch_with_retry retryWitnessCall
      = (.ok 42, 3, [wait_exponential 1 4 10 1, wait_exponential 1 4 10 2]) :=
  (fetch_retry_spec retryWitnessCall "transient" "transient" "transient" 42).2.1 rfl rfl rfl

/-! ### Row normalizer -/

lemma coerceRow_isSome (symbol : String) (rr : RawRow) :
    (coerceRow symbol rr).isSome
      = ((toNumeric rr.high).isSome && (toNumeric rr.low).isSome
          && (toNumeric rr.close).isSome && (toNumeric rr.volume).isSome) := by
  rcases rr with ⟨d, h, l, c, v⟩
  cases h <;> cases l <;> cases c <;> cases v <;> rfl

lemma length_filterMap_eq_length_filter_isSome (f : α → Option β) (l : List α) :
    (l.filterMap f).length = (l.filter (fun a => (f a).isSome)).length := by
  induction l with
  | nil => rfl
  | cons a t ih =>
    cases h : f a <;> simp [List.filterMap_cons, List.filter_cons, h, ih]

/-- Claim C7: for every raw table the normalizer output is sorted
ascending by date, every output row carries the uppercased instrument
code, and the output is exactly (a permutation of) the coercion of the
structurally valid rows: any row with a non-numeric or missing high,
low, close or volume is excluded and all valid rows are included. -/
theorem normalizer_spec (raw : List RawRow) (symbol : String) :
    List.Sorted dateAsc (_process_dataframe raw symbol)
  ∧ (∀ r ∈ _process_dataframe raw symbol, r.code = pyUpper symbol)
  ∧ (_process_dataframe raw symbol).Perm (raw.filterMap (coerceRow symbol))
  ∧ (_process_dataframe raw symbol).length
      = (raw.filter (fun rr => (toNumeric rr.high).isSome && (toNumeric rr.low).isSome
          && (toNumeric rr.close).isSome && (toNumeric rr.volume).isSome)).length := by
  have hperm : (_process_dataframe raw symbol).Perm (raw.filterMap (coerceRow symbol)) :=
    List.perm_insertionSort dateAsc _
  refine ⟨List.sorted_insertionSort dateAsc _, ?_, hperm, ?_⟩
  · intro r hr
    have hr' : r ∈ raw.filterMap (coerceRow symbol) := hperm.mem_iff.mp hr
    obtain ⟨a, _, ha⟩ := List.mem_filterMap.mp hr'
    unfold coerceRow at ha
    split at ha
    · cases ha
      rfl
    · cases ha
  · rw [hperm.length_eq, length_filterMap_eq_length_filter_isSome]
    apply congrArg
    apply List.filter_congr
    intro x _
    exact coerceRow_isSome symbol x

/-- Claim C7 witness: a table with one non-numeric-volume row and one
valid row normalizes to exactly the valid row, stamped GARAN. -/
theorem normalizer_witness :
    (_process_dataframe [rawBadVolume, rawGood] "garan").Perm
        ([rawBadVolume, rawGood].filterMap (coerceRow "garan"))
  ∧ rowGnorm.code = pyUpper "garan" := by
  have h := normalizer_spec [rawBadVolume, rawGood] "garan"
  exact ⟨h.2.2.1, h.2.1 rowGnorm (by decide)⟩

/-! ### Lemmas about the per-symbol pipeline and the fan-out fold -/

lemma process_symbol_stats (cfg : RunConfig) (b : SymbolBehavior) (symbol : String)
    (tbl : Store) (stats : ExecutionStats) :
    (_process_symbol cfg b symbol tbl stats).2.2.1.successful_fetches
        = stats.successful_fetches
          + (if (_process_symbol cfg b symbol tbl stats).1 = SymOutcome.success then 1 else 0)
  ∧ (_process_symbol cfg b symbol tbl stats).2.2.1.failed_fetches
        = stats.failed_fetches
          + (if (_process_symbol cfg b symbol tbl stats).1 = SymOutcome.failed then 1 else 0)
  ∧ (_process_symbol cfg b symbol tbl stats).2.2.1.total_symbols = stats.total_symbols := by
  rcases hf : _fetch_symbol_data cfg b tbl symbol with ⟨res, c⟩
  rcases res with e | o
  · simp [_process_symbol, hf]
  · rcases o with _ | df
    · simp [_process_symbol, hf]
    · by_cases hemp : df.isEmpty <;> by_cases hup : b.upsertFails = true <;>
        simp [_process_symbol, hf, hemp, hup]

lemma process_symbol_outcome (cfg : RunConfig) (b : SymbolBehavior) (symbol : String)
    (tbl : Store) (stats : ExecutionStats) (h1 : cfg.incrementalFetchEnabled = false) :
    (_process_symbol cfg b symbol tbl stats).1 = classifyBehavior b symbol := by
  rcases hb : b.fetchResult with e | o
  · simp [_process_symbol, _fetch_symbol_data, h1, hb, classifyBehavior]
  · rcases o with _ | raw
    · simp [_process_symbol, _fetch_symbol_data, h1, hb, classifyBehavior]
    · by_cases hemp : (_process_dataframe raw symbol).isEmpty <;>
        by_cases hup : b.upsertFails = true <;>
          simp [_process_symbol, _fetch_symbol_data, h1, hb, classifyBehavior, hemp, hup]

lemma runFold_spec (cfg : RunConfig) (behavior : String → SymbolBehavior) :
    ∀ (syms : List String) (acc : RunResult),
      ∃ extra : List SymOutcome,
        (syms.foldl (runStep cfg behavior) acc).outcomes = acc.outcomes ++ extra
      ∧ extra.length = syms.length
      ∧ (syms.foldl (runStep cfg behavior) acc).stats.successful_fetches
          = acc.stats.successful_fetches + extra.count SymOutcome.success
      ∧ (syms.foldl (runStep cfg behavior) acc).stats.failed_fetches
          = acc.stats.failed_fetches + extra.count SymOutcome.failed
      ∧ (syms.foldl (runStep cfg behavior) acc).stats.total_symbols
          = acc.stats.total_symbols := by
  intro syms
  induction syms with
  | nil =>
    intro acc
    exact ⟨[], by simp, rfl, by simp, by simp, rfl⟩
  | cons s ss ih =>
    intro acc
    obtain ⟨extra, ho, hl, hs, hfd, ht⟩ := ih (runStep cfg behavior acc s)
    obtain ⟨h1, h2, h3⟩ := process_symbol_stats cfg (behavior s) s acc.tbl acc.stats
    refine ⟨(_process_symbol cfg (behavior s) s acc.tbl acc.stats).1 :: extra,
      ?_, ?_, ?_, ?_, ?_⟩
    · rw [List.foldl_cons, ho]
      show (acc.outcomes
          ++ [(_process_symbol cfg (behavior s) s acc.tbl acc.stats).1]) ++ extra = _
      rw [List.append_assoc]
      rfl
    · simp [hl]
    · rw [List.foldl_cons, hs]
      show (_process_symbol cfg (behavior s) s acc.tbl acc.stats).2.2.1.successful_fetches
          + extra.count SymOutcome.success = _
      rw [h1, List.count_cons]
      cases hO : (_process_symbol cfg (behavior s) s acc.tbl acc.stats).1 <;> simp
      omega
    · rw [List.foldl_cons, hfd]
      show (_process_symbol cfg (behavior s) s acc.tbl acc.stats).2.2.1.failed_fetches
          + extra.count SymOutcome.failed = _
      rw [h2, List.count_cons]
      cases hO : (_process_symbol cfg (behavior s) s acc.tbl acc.stats).1 <;> simp
      omega
    · rw [List.foldl_cons, ht]
      show (_process_symbol cfg (behavior s) s acc.tbl acc.stats).2.2.1.total_symbols = _
      exact h3

lemma run_counts (cfg : RunConfig) (behavior : String → SymbolBehavior) (tbl₀ : Store) :
    (run cfg behavior tbl₀).stats.successful_fetches
        = (run cfg behavior tbl₀).outcomes.count SymOutcome.success
  ∧ (run cfg behavior tbl₀).stats.failed_fetches
        = (run cfg behavior tbl₀).outcomes.count SymOutcome.failed
  ∧ (run cfg behavior tbl₀).stats.total_symbols
        = (run cfg behavior tbl₀).outcomes.length := by
  unfold run
  split
  · simp [initial_execution_stats]
  · unfold runPipeline
    obtain ⟨extra, ho, hl, hs, hfd, ht⟩ :=
      runFold_spec cfg behavior cfg.symbols
        { stats := { initial_execution_stats with total_symbols := cfg.symbols.length },
          tbl := tbl₀, calls := 0, outcomes := [] }
    rw [ho, hs, hfd, ht]
    simp [initial_execution_stats, hl]

lemma symOutcome_count_three (l : List SymOutcome) :
    l.count SymOutcome.success + l.count SymOutcome.failed + l.count SymOutcome.skipped
      = l.length := by
  induction l with
  | nil => rfl
  | cons o t ih =>
    cases o <;> simp [List.count_cons] <;> omega

lemma fetch_result_ok_none (cfg : RunConfig) (b : SymbolBehavior) (tbl : Store)
    (symbol : String) (hb : b.fetchResult = .ok none) :
    (_fetch_symbol_data cfg b tbl symbol).1 = .ok none := by
  simp only [_fetch_symbol_data]
  split
  · rfl
  · simp [hb]

lemma fetch_error_source (cfg : RunConfig) (b : SymbolBehavior) (tbl : Store)
    (symbol : String) (e : String)
    (h : (_fetch_symbol_data cfg b tbl symbol).1 = .error e) :
    b.fetchResult = .error e := by
  revert h
  simp only [_fetch_symbol_data]
  split
  · intro h
    simp at h
  · rcases hb : b.fetchResult with e' | o
    · intro h
      simp at h
      rw [h]
    · rcases o with _ | raw <;> intro h <;> simp at h

lemma process_symbol_failed_source (cfg : RunConfig) (b : SymbolBehavior) (symbol : String)
    (tbl : Store) (stats : ExecutionStats)
    (h : (_process_symbol cfg b symbol tbl stats).1 = SymOutcome.failed) :
    isErrorResult b.fetchResult = true ∨ b.upsertFails = true := by
  by_cases hup : b.upsertFails = true
  · exact Or.inr hup
  · left
    rcases hb : b.fetchResult with e | o
    · simp [isErrorResult]
    · exfalso
      rcases hp : _fetch_symbol_data cfg b tbl symbol with ⟨res, c⟩
      rcases res with e' | o'
      · have := fetch_error_source cfg b tbl symbol e' (by rw [hp])
        rw [hb] at this
        cases this
      · rcases o' with _ | df
        · simp [_process_symbol, hp] at h
        · by_cases hemp : df.isEmpty <;> simp [_process_symbol, hp, hemp, hup] at h

/-- Claim C10: after every run successful_fetches + failed_fetches is
at most total_symbols; the inequality is strict whenever some task was
skipped (freshness-gate skip, empty provider response, or empty
normalized frame); failed_fetches counts exactly the tasks whose
outcome was a caught exception, and a task's outcome can only be
failed when its provider call raised or its store write raised. -/
theorem stats_invariant_spec (cfg : RunConfig) (behavior : String → SymbolBehavior)
    (tbl₀ tbl : Store) (b : SymbolBehavior) (symbol : String) (stats : ExecutionStats) :
    ((run cfg behavior tbl₀).stats.successful_fetches
        + (run cfg behavior tbl₀).stats.failed_fetches
      ≤ (run cfg behavior tbl₀).stats.total_symbols)
  ∧ (SymOutcome.skipped ∈ (run cfg behavior tbl₀).outcomes →
      (run cfg behavior tbl₀).stats.successful_fetches
          + (run cfg behavior tbl₀).stats.failed_fetches
        < (run cfg behavior tbl₀).stats.total_symbols)
  ∧ ((run cfg behavior tbl₀).stats.failed_fetches
        = (run cfg behavior tbl₀).outcomes.count SymOutcome.failed)
  ∧ ((_process_symbol cfg b symbol tbl stats).1 = SymOutcome.failed →
      isErrorResult b.fetchResult = true ∨ b.upsertFails = true) := by
  obtain ⟨hs, hf, ht⟩ := run_counts cfg behavior tbl₀
  have h3 := symOutcome_count_three (run cfg behavior tbl₀).outcomes
  refine ⟨?_, ?_, hf, process_symbol_failed_source cfg b symbol tbl stats⟩
  · rw [hs, hf, ht]
    omega
  · intro hsk
    have hpos : 0 < (run cfg behavior tbl₀).outcomes.count SymOutcome.skipped :=
      List.count_pos_iff.mpr hsk
    rw [hs, hf, ht]
    omega

/-- Claim C10 witness: with one always-failing task and one
empty-response task among five, the aggregate counts are strictly
below the symbol total, and a failed outcome traces back to a raising
behaviour. -/
theorem stats_invariant_witness :
    ((run cfgFan behaviorMixed []).stats.successful_fetches
        + (run cfgFan behaviorMixed []).stats.failed_fetches
      < (run cfgFan behaviorMixed []).stats.total_symbols)
  ∧ (isErrorResult failBehavior.fetchResult = true ∨ failBehavior.upsertFails = true) := by
  have h := stats_invariant_spec cfgFan behaviorMixed [] [] failBehavior "S1"
    initial_execution_stats
  exact ⟨h.2.1 (by decide), h.2.2.2 (by decide)⟩

lemma runFold_outcomes_classify (cfg : RunConfig) (behavior : String → SymbolBehavior)
    (h1 : cfg.incrementalFetchEnabled = false) :
    ∀ (syms : List String) (acc : RunResult),
      (syms.foldl (runStep cfg behavior) acc).outcomes
        = acc.outcomes ++ syms.map (fun s => classifyBehavior (behavior s) s) := by
  intro syms
  induction syms with
  | nil =>
    intro acc
    simp
  | cons s ss ih =>
    intro acc
    rw [List.foldl_cons, ih]
    show (acc.outcomes ++ [(_process_symbol cfg (behavior s) s acc.tbl acc.stats).1]) ++ _ = _
    rw [process_symbol_outcome cfg (behavior s) s acc.tbl acc.stats h1, List.append_assoc]
    rfl

/-- Claim C6: with incremental gating disabled and the guard passing
(or overridden), every task's outcome is recorded and is a function of
its own behaviour alone — a failing task never prevents the others
from being processed and counted; the aggregate statistics tally those
outcomes exactly. -/
theorem fanout_isolation_spec (cfg : RunConfig) (behavior : String → SymbolBehavior)
    (tbl₀ : Store) (h1 : cfg.incrementalFetchEnabled = false)
    (h2 : (_is_weekend_or_holiday cfg && !cfg.forceRun) = false) :
    (run cfg behavior tbl₀).outcomes
        = cfg.symbols.map (fun s => classifyBehavior (behavior s) s)
  ∧ (run cfg behavior tbl₀).stats.successful_fetches
        = (cfg.symbols.map (fun s => classifyBehavior (behavior s) s)).count SymOutcome.success
  ∧ (run cfg behavior tbl₀).stats.failed_fetches
        = (cfg.symbols.map (fun s => classifyBehavior (behavior s) s)).count SymOutcome.failed
  ∧ (run cfg behavior tbl₀).stats.total_symbols = cfg.symbols.length := by
  obtain ⟨hs, hf, ht⟩ := run_counts cfg behavior tbl₀
  have houtcomes : (run cfg behavior tbl₀).outcomes
      = cfg.symbols.map (fun s => classifyBehavior (behavior s) s) := by
    have hrun : run cfg behavior tbl₀ = runPipeline cfg behavior tbl₀ := by
      simp [run, h2]
    rw [hrun]
    unfold runPipeline
    rw [runFold_outcomes_classify cfg behavior h1 cfg.symbols _]
    simp
  refine ⟨houtcomes, ?_, ?_, ?_⟩
  · rw [hs, houtcomes]
  · rw [hf, houtcomes]
  · rw [ht, houtcomes, List.length_map]

/-- Claim C6 witness: five symbols, exactly one always-failing task:
the final statistics record four successes and one failure. -/
theorem fanout_isolation_witness :
    (run cfgFan behaviorFan []).stats.successful_fetches = 4
  ∧ (run cfgFan behaviorFan []).stats.failed_fetches = 1 := by
  have h := fanout_isolation_spec cfgFan behaviorFan [] rfl (by decide)
  constructor
  · rw [h.2.1]
    decide
  · rw [h.2.2.1]
    decide

/-- Claim C8: the exit code is 1 when a configuration (fatal) error
escapes to main, 130 on user interrupt, 0 when every task succeeded,
and 1 as soon as any task failed, however many succeeded. -/
theorem exit_code_spec (cfg : RunConfig) (behavior : String → SymbolBehavior) (tbl₀ : Store) :
    mainExitCode RunInterruption.configError cfg behavior tbl₀ = 1
  ∧ mainExitCode RunInterruption.keyboardInterrupt cfg behavior tbl₀ = 130
  ∧ ((∀ o ∈ (run cfg behavior tbl₀).outcomes, o = SymOutcome.success) →
      mainExitCode RunInterruption.noInterrupt cfg behavior tbl₀ = 0)
  ∧ (SymOutcome.failed ∈ (run cfg behavior tbl₀).outcomes →
      mainExitCode RunInterruption.noInterrupt cfg behavior tbl₀ = 1) := by
  obtain ⟨hs, hf, ht⟩ := run_counts cfg behavior tbl₀
  refine ⟨rfl, rfl, ?_, ?_⟩
  · intro hall
    have hnot : SymOutcome.failed ∉ (run cfg behavior tbl₀).outcomes := by
      intro hmem
      simpa using hall _ hmem
    have hzero : (run cfg behavior tbl₀).stats.failed_fetches = 0 := by
      rw [hf]
      exact List.count_eq_zero.mpr hnot
    simp [mainExitCode, hzero]
  · intro hmem
    have hpos : 0 < (run cfg behavior tbl₀).stats.failed_fetches := by
      rw [hf]
      exact List.count_pos_iff.mpr hmem
    simp [mainExitCode, hpos]

/-- Claim C8 witness: interrupt gives 130; one failed symbol out of
five gives 1; all symbols succeeding gives 0. -/
theorem exit_code_witness :
    mainExitCode RunInterruption.keyboardInterrupt cfgFan behaviorFan [] = 130
  ∧ mainExitCode RunInterruption.noInterrupt cfgFan behaviorFan [] = 1
  ∧ mainExitCode RunInterruption.noInterrupt cfgFan (fun _ => goodBehavior) [] = 0 := by
  refine ⟨(exit_code_spec cfgFan behaviorFan []).2.1, ?_, ?_⟩
  · exact (exit_code_spec cfgFan behaviorFan []).2.2.2 (by decide)
  · exact (exit_code_spec cfgFan (fun _ => goodBehavior) []).2.2.1 (by decide)

/-- Claim C9: an empty or missing provider response is not an error:
the fetch boundary surfaces it as a plain None (no exception, and the
retry loop records a single attempt with no retry-exhaustion failure),
and the task returns unsuccessful with the statistics and the store
untouched. -/
theorem empty_response_spec (cfg : RunConfig) (b : SymbolBehavior) (symbol : String)
    (tbl : Store) (stats : ExecutionStats) (hb : b.fetchResult = .ok none) :
    (_fetch_symbol_data cfg b tbl symbol).1 = .ok none
  ∧ _process_symbol cfg b symbol tbl stats
      = (SymOutcome.skipped, tbl, stats, (_fetch_symbol_data cfg b tbl symbol).2)
  ∧ fetch_with_retry (fun _ => (Except.ok none : Except String (Option (List RawRow))))
      = (.ok none, 1, []) := by
  have h1 := fetch_result_ok_none cfg b tbl symbol hb
  refine ⟨h1, ?_, rfl⟩
  rcases hp : _fetch_symbol_data cfg b tbl symbol with ⟨res, c⟩
  rw [hp] at h1
  have hres : res = Except.ok none := h1
  subst hres
  simp [_process_symbol, hp]

/-- Claim C9 witness: a concrete empty-response task is marked
unsuccessful with nothing else changed and no exception raised. -/
theorem empty_response_witness :
    _process_symbol cfgFan emptyBehavior "S1" [] initial_execution_stats
      = (SymOutcome.skipped, [], initial_execution_stats,
          (_fetch_symbol_data cfgFan emptyBehavior [] "S1").2) :=
  (empty_response_spec cfgFan emptyBehavior "S1" [] initial_execution_stats rfl).2.1
